import Mathlib

/-!
Verification of the message-lifecycle, presence, room-authorization and
group-membership core of the messaging backend. Definitions are shallow
embeddings of the JavaScript source files: the external Mongo store is
modelled by explicit values and lists, wall-clock time by an explicit
integer parameter, and thrown exceptions by `Except String`.
-/

namespace Chat

/-- Attachment subdocument of the message schema (src/models/messageModel.js). -/
structure Attachment where
  url : String
  type : String
  name : String
  size : Nat
  thumbnailUrl : Option String
deriving DecidableEq

/-- Entry of the per-viewer soft-delete list `deletedBy` of a message. -/
structure DeletedByEntry where
  userId : String
  deletedAt : Int
deriving DecidableEq

/-- Entry of the per-viewer read-receipt list `readBy` of a message. -/
structure ReadByEntry where
  userId : String
  readAt : Int
deriving DecidableEq

/-- Mention subdocument of the message schema. -/
structure Mention where
  userId : String
  name : String
deriving DecidableEq

/-- Message document (src/models/messageModel.js, messageSchema). Timestamps
are modelled as integers (milliseconds). -/
structure Message where
  messageId : String
  conversationId : String
  senderId : String
  receiverId : Option String
  type : String
  content : String
  attachments : List Attachment
  deletedBy : List DeletedByEntry
  isDeleted : Bool
  isRecalled : Bool
  readBy : List ReadByEntry
  readAt : Option Int
  forwardedFrom : Option String
  replyTo : Option String
  mentions : List Mention
  createdAt : Int
deriving DecidableEq

/-- Conversation document (src/models/messageModel.js, conversationSchema). -/
structure Conversation where
  conversationId : String
  participants : List String
  isGroup : Bool
  lastMessageId : Option String
  lastMessageAt : Int
deriving DecidableEq

/-- The recall window used by recallMessage: 60 * 60 * 1000 milliseconds. -/
def hourInMillis : Int := 60 * 60 * 1000

/-- recallMessage (src/models/messageModel.js, lines 352 - 386). The message
looked up by id is passed in directly; `currentTime` stands for
new Date().getTime(). The JS code first rejects a non-sender caller, then
rejects when more than one hour has elapsed, and otherwise clears content
and attachments, sets the type to recalled and raises the isRecalled flag. -/
def recallMessage (message : Message) (userId : String) (currentTime : Int) :
    Except String Message :=
  if message.senderId ≠ userId then
    .error "You can only recall your own messages"
  else if currentTime - message.createdAt > hourInMillis then
    .error "Messages can only be recalled within 1 hour of sending"
  else
    .ok { message with
            isRecalled := true
            content := ""
            attachments := []
            type := "recalled" }

/-- deleteMessage (src/models/messageModel.js, lines 327 - 350). The update
pushes one soft-delete marker onto `deletedBy` and touches nothing else;
there is no sender check in the source. -/
def deleteMessage (message : Message) (userId : String) (now : Int) : Message :=
  { message with deletedBy := message.deletedBy ++ [⟨userId, now⟩] }

/-- markMessageAsRead (src/models/messageModel.js, lines 282 - 306). The JS
first queries for the message with `readBy.userId` distinct from the caller;
when the caller already appears in `readBy` that query misses and the
function returns null without writing. Otherwise it pushes a receipt and
refreshes the legacy `readAt` field. -/
def markMessageAsRead (message : Message) (userId : String) (now : Int) :
    Option Message :=
  if message.readBy.any (fun r => r.userId == userId) then
    none
  else
    some { message with
             readBy := message.readBy ++ [⟨userId, now⟩]
             readAt := some now }

/-- forwardMessage (src/models/messageModel.js, lines 388 - 429). The source
message and the destination conversation lookup result are passed in;
`freshId` stands for the uuid given to the new document and `now` for its
creation timestamp. -/
def forwardMessage (originalMessage : Message) (conversationId : String)
    (senderId : String) (receiverId : Option String)
    (conversation : Option Conversation) (freshId : String) (now : Int) :
    Except String Message :=
  if originalMessage.isDeleted || originalMessage.isRecalled then
    .error "Cannot forward a deleted or recalled message"
  else
    match conversation with
    | none => .error "Conversation not found"
    | some conv =>
        .ok { messageId := freshId
              conversationId := conversationId
              senderId := senderId
              receiverId := if conv.isGroup then none else receiverId
              type := originalMessage.type
              content := originalMessage.content
              attachments := originalMessage.attachments
              deletedBy := []
              isDeleted := false
              isRecalled := false
              readBy := []
              readAt := none
              forwardedFrom := some originalMessage.messageId
              replyTo := none
              mentions := []
              createdAt := now }

/-- The Mongo query used by getOrCreateConversation:
participants $all `participants` and $size 2, with isGroup false. -/
def conversationPairQuery (participants : List String) (c : Conversation) :
    Bool :=
  participants.all (fun u => c.participants.contains u) &&
    c.participants.length == 2 && c.isGroup == false

/-- The canonical participant pair [user1Id, user2Id].sort(): Array.sort
compares strings lexicographically. -/
def canonicalPair (user1Id user2Id : String) : List String :=
  if user2Id < user1Id then [user2Id, user1Id] else [user1Id, user2Id]

/-- The conversation document created by a missed getOrCreateConversation
lookup. -/
def newPairConversation (user1Id user2Id freshId : String) (now : Int) :
    Conversation :=
  { conversationId := freshId
    participants := canonicalPair user1Id user2Id
    isGroup := false
    lastMessageId := none
    lastMessageAt := now }

/-- getOrCreateConversation (src/models/messageModel.js, lines 129 - 156).
The collection is modelled as a list searched in insertion order; the JS
canonicalizes the pair with Array.sort (lexicographic) before querying, and
inserts a fresh two-party conversation when the query misses. -/
def getOrCreateConversation (store : List Conversation)
    (user1Id user2Id : String) (freshId : String) (now : Int) :
    Except String (Conversation × List Conversation) :=
  if user1Id == "" || user2Id == "" then
    .error "Both user IDs are required to create a conversation"
  else
    match store.find?
        (conversationPairQuery (canonicalPair user1Id user2Id)) with
    | some conversation => .ok (conversation, store)
    | none =>
        .ok (newPairConversation user1Id user2Id freshId now,
             store ++ [newPairConversation user1Id user2Id freshId now])

/-- markAsRead HTTP handler (src/controllers/messageController.js, lines
680 - 735), reduced to its decision structure: the looked-up message and
conversation are passed in, and the result is the HTTP status code paired
with the updated message on success. A null result from markMessageAsRead
is mapped to status 400 with the text
"Message already marked as read or not found". -/
def markAsRead (message : Option Message) (conversation : Option Conversation)
    (userId : String) (now : Int) : Nat × Option Message :=
  match message with
  | none => (404, none)
  | some msg =>
      match conversation with
      | none => (404, none)
      | some conv =>
          if !(conv.participants.contains userId) then (403, none)
          else if msg.senderId == userId then (400, none)
          else
            match markMessageAsRead msg userId now with
            | none => (400, none)
            | some updated => (200, some updated)

/-- deleteUserMessage HTTP handler (src/controllers/messageController.js,
lines 737 - 772): after the existence check it calls deleteMessage with the
caller id and answers 200. Its catch clause matches the error text
"You can only delete your own messages", but no code path raises it. -/
def deleteUserMessage (message : Option Message) (userId : String)
    (now : Int) : Nat × Option Message :=
  match message with
  | none => (404, none)
  | some msg => (200, some (deleteMessage msg userId now))

/-- Repeated application of markMessageAsRead by one identity, keeping the
previous document whenever the model function declines to write. -/
def markReadIter (message : Message) (userId : String) (now : Int) :
    Nat → Message
  | 0 => message
  | n + 1 =>
      let prev := markReadIter message userId now n
      match markMessageAsRead prev userId now with
      | none => prev
      | some updated => updated

/-- Role constant GROUP_ROLES.ADMIN (src/models/groupModel.js). -/
def ROLE_ADMIN : String := "admin"

/-- Role constant GROUP_ROLES.MODERATOR (src/models/groupModel.js). -/
def ROLE_MODERATOR : String := "moderator"

/-- Role constant GROUP_ROLES.MEMBER (src/models/groupModel.js). -/
def ROLE_MEMBER : String := "member"

/-- Member entry of the group schema (src/models/groupModel.js,
groupMemberSchema). -/
structure GroupMember where
  userId : String
  role : String
  addedBy : String
  addedAt : Int
  lastReadMessageId : Option String
deriving DecidableEq

/-- Group document (src/models/groupModel.js, groupSchema), restricted to the
fields the membership operations read or write. -/
structure Group where
  groupId : String
  name : String
  createdBy : String
  conversationId : String
  members : List GroupMember
  isActive : Bool
deriving DecidableEq

/-- Number of members whose role is admin, as computed by the
`group.members.filter(role === ADMIN).length` checks in groupModel.js. -/
def adminCount (g : Group) : Nat :=
  (g.members.filter (fun m => m.role == ROLE_ADMIN)).length

/-- A group retains at least one admin member. -/
def hasAdmin (g : Group) : Bool :=
  g.members.any (fun m => m.role == ROLE_ADMIN)

/-- addGroupMember (src/models/groupModel.js, lines 181 - 213). The group and
its linked conversation are passed in; the inactive-group case mirrors the
`findOne({groupId, isActive: true})` miss. The conversation update is the
$addToSet of the new participant. -/
def addGroupMember (g : Group) (conv : Conversation) (userId : String)
    (addedBy : String) (role : String) (now : Int) :
    Except String (Group × Conversation) :=
  if !g.isActive then .error "Group not found"
  else if (g.members.find? (fun m => m.userId == userId)).isSome then
    .error "User is already a member of this group"
  else
    .ok ({ g with members := g.members ++
             [{ userId := userId, role := role, addedBy := addedBy,
                addedAt := now, lastReadMessageId := none }] },
         { conv with participants :=
             if conv.participants.contains userId then conv.participants
             else conv.participants ++ [userId] })

/-- removeGroupMember (src/models/groupModel.js, lines 216 - 251). Splicing
out members[findIndex] is modelled by eraseP on the first matching member;
the conversation update is the $pull of the participant. -/
def removeGroupMember (g : Group) (conv : Conversation) (userId : String) :
    Except String (Group × Conversation) :=
  if !g.isActive then .error "Group not found"
  else
    match g.members.find? (fun m => m.userId == userId) with
    | none => .error "User is not a member of this group"
    | some member =>
        if member.role == ROLE_ADMIN && adminCount g == 1 then
          .error "Cannot remove the only admin from the group"
        else
          .ok ({ g with members := g.members.eraseP (fun m => m.userId == userId) },
               { conv with participants :=
                   conv.participants.filter (fun p => p != userId) })

/-- Assignment members[findIndex].role = newRole of updateMemberRole: the
first member with the given userId gets the new role. -/
def setRole (ms : List GroupMember) (userId newRole : String) :
    List GroupMember :=
  match ms with
  | [] => []
  | m :: rest =>
      if m.userId == userId then { m with role := newRole } :: rest
      else m :: setRole rest userId newRole

/-- updateMemberRole (src/models/groupModel.js, lines 254 - 285). -/
def updateMemberRole (g : Group) (userId newRole : String) :
    Except String Group :=
  if !g.isActive then .error "Group not found"
  else
    match g.members.find? (fun m => m.userId == userId) with
    | none => .error "User is not a member of this group"
    | some member =>
        if member.role == ROLE_ADMIN && !(newRole == ROLE_ADMIN) &&
            adminCount g == 1 then
          .error "Cannot demote the only admin of the group"
        else
          .ok { g with members := setRole g.members userId newRole }

/-- leaveGroup (src/models/groupModel.js, lines 419 - 454). Identical state
change to removeGroupMember, guarded by the sole-admin check with its own
error text. -/
def leaveGroup (g : Group) (conv : Conversation) (userId : String) :
    Except String (Group × Conversation) :=
  if !g.isActive then .error "Group not found"
  else
    match g.members.find? (fun m => m.userId == userId) with
    | none => .error "User is not a member of this group"
    | some member =>
        if member.role == ROLE_ADMIN && adminCount g == 1 then
          .error "As the only admin, you must assign another admin before leaving the group"
        else
          .ok ({ g with members := g.members.eraseP (fun m => m.userId == userId) },
               { conv with participants :=
                   conv.participants.filter (fun p => p != userId) })

/-- Lookup in a JS Map modelled as an association list with unique keys. -/
def mapLookup (m : List (String × α)) (k : String) : Option α :=
  (m.find? (fun e => e.1 == k)).map (fun e => e.2)

/-- Map.set: replace the value at an existing key, append otherwise. -/
def mapSet : List (String × α) → String → α → List (String × α)
  | [], k, v => [(k, v)]
  | (k', v') :: rest, k, v =>
      if k' == k then (k, v) :: rest else (k', v') :: mapSet rest k v

/-- Map.delete. -/
def mapDelete (m : List (String × α)) (k : String) : List (String × α) :=
  m.filter (fun e => e.1 != k)

/-- Set.add on a JS Set modelled as a duplicate-free list. -/
def addToSet (s : List String) (x : String) : List String :=
  if s.contains x then s else s ++ [x]

/-- Set.delete. -/
def setDelete (s : List String) (x : String) : List String :=
  s.filter (fun y => y != x)

/-- Payload of emitUserStatus (src/socket manager, part_000 lines 166 - 172
and part_001 lines 276 - 282): userId, isOnline, and lastSeen, which is null
while online and the current date on the offline transition. -/
structure StatusEvent where
  userId : String
  isOnline : Bool
  lastSeen : Option Int
deriving DecidableEq

/-- In-memory socket-server state (src/unnamed/part_001, lines 12 - 15):
the four module-level maps plus the socket.io room-membership table, the
latter as (socketId, roomName) pairs. -/
structure SocketState where
  userSocketMap : List (String × List String)
  socketUserMap : List (String × String)
  userConversationsMap : List (String × List String)
  userGroupsMap : List (String × List String)
  rooms : List (String × String)
deriving DecidableEq

/-- The state before any connection is accepted. -/
def SocketState.empty : SocketState := ⟨[], [], [], [], []⟩

/-- socket.join: a socket already in the room is left as is. -/
def joinRoom (rooms : List (String × String)) (sid room : String) :
    List (String × String) :=
  if rooms.contains (sid, room) then rooms else rooms ++ [(sid, room)]

/-- Connection handler bookkeeping (src/unnamed/part_001, lines 58 - 76):
create the per-user entries on first connection, add the socket to the
user's set, record the inverse index, join the personal room, and emit one
online status event. -/
def connectSocket (st : SocketState) (userId sid : String) :
    SocketState × List StatusEvent :=
  let st₁ :=
    if (mapLookup st.userSocketMap userId).isSome then st
    else { st with
             userSocketMap := mapSet st.userSocketMap userId []
             userConversationsMap := mapSet st.userConversationsMap userId []
             userGroupsMap := mapSet st.userGroupsMap userId [] }
  let sockets := (mapLookup st₁.userSocketMap userId).getD []
  ({ st₁ with
       userSocketMap := mapSet st₁.userSocketMap userId (addToSet sockets sid)
       socketUserMap := mapSet st₁.socketUserMap sid userId
       rooms := joinRoom st₁.rooms sid userId },
   [⟨userId, true, none⟩])

/-- DISCONNECT handler (src/unnamed/part_001, lines 251 - 269): remove the
socket from the user's set; when the set becomes empty, delete the user's
three map entries and emit exactly one offline status event carrying a
lastSeen timestamp. The inverse index entry is always removed, and socket.io
itself drops the dead socket from every room. -/
def disconnectSocket (st : SocketState) (userId sid : String) (now : Int) :
    SocketState × List StatusEvent :=
  let (st₁, events) : SocketState × List StatusEvent :=
    match mapLookup st.userSocketMap userId with
    | none => (st, [])
    | some sockets =>
        let remaining := setDelete sockets sid
        if remaining.isEmpty then
          ({ st with
               userSocketMap := mapDelete st.userSocketMap userId
               userConversationsMap := mapDelete st.userConversationsMap userId
               userGroupsMap := mapDelete st.userGroupsMap userId },
           [⟨userId, false, some now⟩])
        else
          ({ st with userSocketMap := mapSet st.userSocketMap userId remaining },
           [])
  ({ st₁ with
       socketUserMap := mapDelete st₁.socketUserMap sid
       rooms := st₁.rooms.filter (fun e => e.1 != sid) },
   events)

/-- getUserOnlineStatus (src/unnamed/part_001, lines 425 - 427):
userSocketMap.has(userId). -/
def getUserOnlineStatus (st : SocketState) (userId : String) : Bool :=
  (mapLookup st.userSocketMap userId).isSome

/-- The live connections registered for a user. -/
def liveConnections (st : SocketState) (userId : String) : List String :=
  (mapLookup st.userSocketMap userId).getD []

/-- Sequential processing of a batch of disconnects for one identity, as the
single-threaded event loop serializes near-simultaneous socket closes. -/
def runDisconnects (st : SocketState) (userId : String) (sids : List String)
    (now : Int) : SocketState × List StatusEvent :=
  match sids with
  | [] => (st, [])
  | sid :: rest =>
      let step := disconnectSocket st userId sid now
      let tail := runDisconnects step.1 userId rest now
      (tail.1, step.2 ++ tail.2)

/-- Number of offline status events for one identity in an event trace. -/
def offlineEventCount (events : List StatusEvent) (userId : String) : Nat :=
  events.countP (fun e => e.userId == userId && e.isOnline == false)

/-- Modelled from the spec: the event-name constants live in
src/socket/socketEvents.js, which is absent from the provided sources; the
names are fixed by the section 6 event vocabulary and by the literal strings
the message controller passes to the dispatcher. Error push event. -/
def EVENT_ERROR : String := "error"

/-- Modelled from the spec: user_joined push event (section 6 vocabulary). -/
def EVENT_USER_JOINED : String := "user_joined"

/-- Modelled from the spec: new_message push event; the controller passes
this literal to emitToConversation. -/
def EVENT_NEW_MESSAGE : String := "new_message"

/-- Modelled from the spec: message_deleted push event; the controller
passes this literal to emitToConversation. -/
def EVENT_MESSAGE_DELETED : String := "message_deleted"

/-- Modelled from the spec: message_recalled push event; the controller
passes this literal to emitToConversation. -/
def EVENT_MESSAGE_RECALLED : String := "message_recalled"

/-- Destination of one socket.io emit call: a single socket, a whole room,
or a room minus the emitting socket (socket.to(room).emit). -/
inductive EmitDest where
  | toSocket (sid : String)
  | toRoom (room : String)
  | toRoomExcept (room : String) (sid : String)
deriving DecidableEq

/-- One emit call: destination, event name, and the message text carried by
error payloads (empty for the other payload shapes). -/
structure Emission where
  dest : EmitDest
  event : String
  info : String
deriving DecidableEq

/-- JOIN_CONVERSATION handler (src/unnamed/part_001, lines 104 - 134). The
conversation lookup result is passed in. A missing conversation or a
non-participant caller gets a single error emission on the requesting socket
and the state is untouched; otherwise the socket joins the room, the
conversation is recorded in the caller's active set, and user_joined is
broadcast to the other room subscribers. -/
def joinConversation (st : SocketState) (sid userId conversationId : String)
    (conversation : Option Conversation) : SocketState × List Emission :=
  match conversation with
  | none => (st, [⟨.toSocket sid, EVENT_ERROR, "Conversation not found"⟩])
  | some conv =>
      if !(conv.participants.contains userId) then
        (st, [⟨.toSocket sid, EVENT_ERROR, "Not authorized to join this conversation"⟩])
      else
        ({ st with
             rooms := joinRoom st.rooms sid conversationId
             userConversationsMap :=
               mapSet st.userConversationsMap userId
                 (addToSet ((mapLookup st.userConversationsMap userId).getD [])
                   conversationId) },
         [⟨.toRoomExcept conversationId sid, EVENT_USER_JOINED, ""⟩])

/-- emitToConversation (src/unnamed/part_001, lines 303 - 365), as the list
of emit calls it performs. For new_message it resolves the conversation and,
when found, emits to the conversation room and then once per participant to
that participant's personal room; a missing conversation emits nothing. For
message_deleted and message_recalled, and for every other event, it emits to
the conversation room only. -/
def emitToConversation (event : String) (conversationId : String)
    (conversation : Option Conversation) : List Emission :=
  if event == EVENT_NEW_MESSAGE then
    match conversation with
    | none => []
    | some conv =>
        ⟨.toRoom conversationId, event, ""⟩ ::
          conv.participants.map (fun p => ⟨.toRoom p, event, ""⟩)
  else if event == EVENT_MESSAGE_DELETED || event == EVENT_MESSAGE_RECALLED then
    [⟨.toRoom conversationId, event, ""⟩]
  else
    [⟨.toRoom conversationId, event, ""⟩]

/-- Registry invariant: every entry of userSocketMap holds a non-empty
socket set; the handlers delete an entry the moment its set drains. -/
def GoodState (st : SocketState) : Prop :=
  ∀ u s, mapLookup st.userSocketMap u = some s → s ≠ []

/-- Concrete registry state: user A connected from two devices. -/
def multiDeviceState : SocketState :=
  (connectSocket (connectSocket SocketState.empty "A" "s1").1 "A" "s2").1

/-- Sockets currently subscribed to a room. -/
def socketsInRoom (st : SocketState) (room : String) : List String :=
  (st.rooms.filter (fun e => e.2 == room)).map (fun e => e.1)

/-- Sockets reached by one emit destination. -/
def destSockets (st : SocketState) : EmitDest → List String
  | .toSocket sid => [sid]
  | .toRoom room => socketsInRoom st room
  | .toRoomExcept room sid => (socketsInRoom st room).filter (fun s => s != sid)

/-- Sockets reached by a list of emit calls, with multiplicity. -/
def deliveredSockets (st : SocketState) (emissions : List Emission) :
    List String :=
  emissions.flatMap (fun e => destSockets st e.dest)

/-- Concrete message used by the witness instantiations. -/
def sampleMessage : Message :=
  { messageId := "m1"
    conversationId := "c1"
    senderId := "A"
    receiverId := some "B"
    type := "text"
    content := "hi"
    attachments := []
    deletedBy := []
    isDeleted := false
    isRecalled := false
    readBy := []
    readAt := none
    forwardedFrom := none
    replyTo := none
    mentions := []
    createdAt := 0 }

/-- Concrete one-on-one conversation used by the witness instantiations. -/
def sampleConversation : Conversation :=
  { conversationId := "c1"
    participants := ["A", "B"]
    isGroup := false
    lastMessageId := none
    lastMessageAt := 0 }

/-- Concrete two-member group (admin A, member B) used by the witnesses. -/
def sampleGroup : Group :=
  { groupId := "g1"
    name := "team"
    createdBy := "A"
    conversationId := "gc1"
    members :=
      [ { userId := "A", role := ROLE_ADMIN, addedBy := "A", addedAt := 0,
          lastReadMessageId := none },
        { userId := "B", role := ROLE_MEMBER, addedBy := "A", addedAt := 0,
          lastReadMessageId := none } ]
    isActive := true }

/-- Conversation linked to the sample group. -/
def sampleGroupConversation : Conversation :=
  { conversationId := "gc1"
    participants := ["A", "B"]
    isGroup := true
    lastMessageId := none
    lastMessageAt := 0 }

/-- The sample message after participant B has read it once. -/
def readSampleMessage : Message :=
  { sampleMessage with readBy := [⟨"B", 1⟩], readAt := some 1 }

/-- Concrete socket-server state: user A is connected on socket s1, which
has joined the personal room A and the conversation room c1; user B is
connected on socket s2, which has joined only the personal room B. -/
def dispatchState : SocketState :=
  { userSocketMap := [("A", ["s1"]), ("B", ["s2"])]
    socketUserMap := [("s1", "A"), ("s2", "B")]
    userConversationsMap := [("A", ["c1"]), ("B", [])]
    userGroupsMap := [("A", []), ("B", [])]
    rooms := [("s1", "A"), ("s1", "c1"), ("s2", "B")] }

/-- C1: recallMessage succeeds only for the sender within 3600000 ms of
creation, clearing content and attachments, setting the type to recalled and
raising isRecalled; a non-sender caller or an expired window yields an error,
and since the embedding is a pure function an error result performs no
update, leaving the stored message unchanged. -/
theorem recallMessage_spec (m : Message) (uid : String) (now : Int) :
    (m.senderId = uid → now - m.createdAt ≤ hourInMillis →
      recallMessage m uid now =
        .ok { m with isRecalled := true, content := "", attachments := [],
                     type := "recalled" }) ∧
    (m.senderId ≠ uid →
      recallMessage m uid now = .error "You can only recall your own messages") ∧
    (m.senderId = uid → now - m.createdAt > hourInMillis →
      recallMessage m uid now =
        .error "Messages can only be recalled within 1 hour of sending") ∧
    (∀ m', recallMessage m uid now = .ok m' →
      m.senderId = uid ∧ now - m.createdAt ≤ hourInMillis ∧
      m' = { m with isRecalled := true, content := "", attachments := [],
                    type := "recalled" }) := by
  refine ⟨?_, ?_, ?_, ?_⟩
  · intro hs ht
    simp [recallMessage, hs, not_lt.mpr ht]
  · intro hs
    simp [recallMessage, hs]
  · intro hs ht
    simp [recallMessage, hs, ht]
  · intro m' h
    unfold recallMessage at h
    split at h
    · simp at h
    · split at h
      · simp at h
      · rename_i hs ht
        exact ⟨by simpa using hs, by simpa using not_lt.mp ht, by
          cases h; rfl⟩

/-- Witness for recallMessage_spec: the sender recalls sampleMessage half an
hour after creation and the recalled document is as stated. -/
theorem recallMessage_spec_witness :
    sampleMessage.senderId = "A" ∧
    (1800000 : Int) - sampleMessage.createdAt ≤ hourInMillis ∧
    recallMessage sampleMessage "A" 1800000 =
      .ok { sampleMessage with isRecalled := true, content := "",
                               attachments := [], type := "recalled" } :=
  ⟨by decide, by decide,
    (recallMessage_spec sampleMessage "A" 1800000).1 (by decide) (by decide)⟩

/-- C6: forwarding a message that is flagged deleted or recalled is rejected
with an error, and in the pure embedding an error result creates no new
document; otherwise, with the destination conversation found, the new
message copies type, content and attachments from the source and stamps
forwardedFrom with the source id. -/
theorem forwardMessage_spec (m : Message) (cid sid : String)
    (rid : Option String) (conversation : Option Conversation)
    (fid : String) (now : Int) :
    (m.isDeleted = true ∨ m.isRecalled = true →
      forwardMessage m cid sid rid conversation fid now =
        .error "Cannot forward a deleted or recalled message") ∧
    (∀ conv, m.isDeleted = false → m.isRecalled = false →
      conversation = some conv →
      forwardMessage m cid sid rid conversation fid now =
        .ok { messageId := fid
              conversationId := cid
              senderId := sid
              receiverId := if conv.isGroup then none else rid
              type := m.type
              content := m.content
              attachments := m.attachments
              deletedBy := []
              isDeleted := false
              isRecalled := false
              readBy := []
              readAt := none
              forwardedFrom := some m.messageId
              replyTo := none
              mentions := []
              createdAt := now }) := by
  constructor
  · intro h
    rcases h with h | h <;> simp [forwardMessage, h]
  · intro conv hd hr hc
    subst hc
    simp [forwardMessage, hd, hr]

/-- Witness for forwardMessage_spec: forwarding a recalled message is
rejected. -/
theorem forwardMessage_spec_witness :
    ({ sampleMessage with isRecalled := true } : Message).isRecalled = true ∧
    forwardMessage { sampleMessage with isRecalled := true } "c2" "B" none
        (some sampleConversation) "m2" 10 =
      .error "Cannot forward a deleted or recalled message" :=
  ⟨rfl,
    (forwardMessage_spec { sampleMessage with isRecalled := true } "c2" "B"
        none (some sampleConversation) "m2" 10).1 (Or.inr rfl)⟩

/-- C2 evidence: the delete path never checks the sender. The message of
sender A is deleted by the non-sender B and the handler answers 200 with the
soft-delete marker of B appended, instead of rejecting the call. -/
theorem deleteUserMessage_nonSender_eval :
    sampleMessage.senderId ≠ "B" ∧
    deleteUserMessage (some sampleMessage) "B" 7 =
      (200, some { sampleMessage with deletedBy := [⟨"B", 7⟩] }) := by
  constructor
  · decide
  · rfl

/-- C10: a successful deleteMessage appends exactly one marker for the
caller to deletedBy and leaves every other field of the message unchanged;
in particular the global isDeleted flag stays clear, so a soft-deleted
message still passes the forwardMessage eligibility check. -/
theorem deleteMessage_frame_spec (m : Message) (uid : String) (now : Int) :
    (deleteMessage m uid now).deletedBy = m.deletedBy ++ [⟨uid, now⟩] ∧
    (deleteMessage m uid now).content = m.content ∧
    (deleteMessage m uid now).attachments = m.attachments ∧
    (deleteMessage m uid now).type = m.type ∧
    (deleteMessage m uid now).isDeleted = m.isDeleted ∧
    (deleteMessage m uid now).isRecalled = m.isRecalled ∧
    (deleteMessage m uid now).readBy = m.readBy ∧
    (deleteMessage m uid now).replyTo = m.replyTo ∧
    (deleteMessage m uid now).mentions = m.mentions ∧
    (deleteMessage m uid now).forwardedFrom = m.forwardedFrom ∧
    (∀ cid sid rid conv fid t, m.isDeleted = false → m.isRecalled = false →
      (forwardMessage (deleteMessage m uid now) cid sid rid (some conv)
         fid t).isOk = true) := by
  refine ⟨rfl, rfl, rfl, rfl, rfl, rfl, rfl, rfl, rfl, rfl, ?_⟩
  intro cid sid rid conv fid t hd hr
  simp [forwardMessage, deleteMessage, hd, hr, Except.isOk, Except.toBool]

/-- Witness for deleteMessage_frame_spec: after B soft-deletes the sample
message, forwarding it still succeeds. -/
theorem deleteMessage_frame_spec_witness :
    sampleMessage.isDeleted = false ∧ sampleMessage.isRecalled = false ∧
    (forwardMessage (deleteMessage sampleMessage "B" 7) "c2" "A" none
       (some sampleConversation) "m3" 11).isOk = true :=
  ⟨rfl, rfl,
    (deleteMessage_frame_spec sampleMessage "B" 7).2.2.2.2.2.2.2.2.2.2
      "c2" "A" none sampleConversation "m3" 11 rfl rfl⟩

/-- C9: a join-conversation request from a connection whose identity is not
in the participant list leaves the state untouched and produces exactly one
emission, the authorization error on the requesting socket; in particular
the socket joins no room, the active-conversation set is unchanged, and
nothing named user_joined is broadcast. -/
theorem joinConversation_unauthorized_spec (st : SocketState)
    (sid uid cid : String) (conv : Conversation)
    (h : conv.participants.contains uid = false) :
    joinConversation st sid uid cid (some conv) =
      (st, [⟨.toSocket sid, EVENT_ERROR,
             "Not authorized to join this conversation"⟩]) ∧
    (joinConversation st sid uid cid (some conv)).1.rooms = st.rooms ∧
    (joinConversation st sid uid cid (some conv)).1.userConversationsMap =
      st.userConversationsMap ∧
    (∀ e ∈ (joinConversation st sid uid cid (some conv)).2,
       e.dest = EmitDest.toSocket sid ∧ e.event = EVENT_ERROR) := by
  have h' : uid ∉ conv.participants := by simpa using h
  have key : joinConversation st sid uid cid (some conv) =
      (st, [⟨.toSocket sid, EVENT_ERROR,
             "Not authorized to join this conversation"⟩]) := by
    simp [joinConversation, h']
  refine ⟨key, by rw [key], by rw [key], ?_⟩
  intro e he
  rw [key] at he
  simp at he
  subst he
  exact ⟨rfl, rfl⟩

/-- Witness for joinConversation_unauthorized_spec: identity C, which is not
a participant of the sample conversation, is refused with a single error
emission and the empty state is unchanged. -/
theorem joinConversation_unauthorized_spec_witness :
    sampleConversation.participants.contains "C" = false ∧
    joinConversation SocketState.empty "s9" "C" "c1"
        (some sampleConversation) =
      (SocketState.empty,
       [⟨.toSocket "s9", EVENT_ERROR,
         "Not authorized to join this conversation"⟩]) :=
  ⟨by decide,
    (joinConversation_unauthorized_spec SocketState.empty "s9" "C" "c1"
        sampleConversation (by decide)).1⟩

/-- C8 counterexample: dispatching message_deleted to conversation c1 of
participants A and B reaches only the sockets subscribed to the room c1,
here s1; socket s2, a live connection of participant B reachable through the
personal room B, receives nothing, although the claim requires a direct
per-participant delivery for every event. -/
theorem emitToConversation_room_only_counterexample :
    "B" ∈ sampleConversation.participants ∧
    "s2" ∈ socketsInRoom dispatchState "B" ∧
    deliveredSockets dispatchState
        (emitToConversation EVENT_MESSAGE_DELETED "c1"
          (some sampleConversation)) = ["s1"] ∧
    "s2" ∉ deliveredSockets dispatchState
        (emitToConversation EVENT_MESSAGE_DELETED "c1"
          (some sampleConversation)) := by
  refine ⟨by decide, by decide, by decide, by decide⟩

/-- C8 amended: only for new_message does the dispatcher perform the dual
delivery — to every socket in the conversation room and, independently, to
every socket in the personal room of each participant of the found
conversation; every other event is emitted to the conversation room only. -/
theorem emitToConversation_dual_delivery_spec (st : SocketState)
    (cid : String) (conv : Conversation) (event : String) :
    (∀ s ∈ socketsInRoom st cid,
       s ∈ deliveredSockets st
             (emitToConversation EVENT_NEW_MESSAGE cid (some conv))) ∧
    (∀ p ∈ conv.participants, ∀ s ∈ socketsInRoom st p,
       s ∈ deliveredSockets st
             (emitToConversation EVENT_NEW_MESSAGE cid (some conv))) ∧
    (event ≠ EVENT_NEW_MESSAGE →
       emitToConversation event cid (some conv) =
         [⟨.toRoom cid, event, ""⟩]) := by
  have hnew : emitToConversation EVENT_NEW_MESSAGE cid (some conv) =
      ⟨.toRoom cid, EVENT_NEW_MESSAGE, ""⟩ ::
        conv.participants.map
          (fun p => ⟨.toRoom p, EVENT_NEW_MESSAGE, ""⟩) := by
    simp [emitToConversation]
  refine ⟨?_, ?_, ?_⟩
  · intro s hs
    rw [hnew]
    unfold deliveredSockets
    refine List.mem_flatMap.mpr ?_
    exact ⟨⟨.toRoom cid, EVENT_NEW_MESSAGE, ""⟩, List.mem_cons_self _ _,
      by simpa [destSockets] using hs⟩
  · intro p hp s hs
    rw [hnew]
    unfold deliveredSockets
    refine List.mem_flatMap.mpr ?_
    refine ⟨⟨.toRoom p, EVENT_NEW_MESSAGE, ""⟩, ?_, by
      simpa [destSockets] using hs⟩
    exact List.mem_cons_of_mem _ (List.mem_map_of_mem _ hp)
  · intro hne
    have : (event == EVENT_NEW_MESSAGE) = false := by
      simpa using hne
    simp [emitToConversation, this]

/-- Witness for emitToConversation_dual_delivery_spec: in the concrete state
the typing event to conversation c1 goes to the room only, while the
new_message delivery reaches socket s2 through the personal room of
participant B. -/
theorem emitToConversation_dual_delivery_spec_witness :
    ("typing_indicator" : String) ≠ EVENT_NEW_MESSAGE ∧
    emitToConversation "typing_indicator" "c1" (some sampleConversation) =
      [⟨.toRoom "c1", "typing_indicator", ""⟩] ∧
    "s2" ∈ deliveredSockets dispatchState
      (emitToConversation EVENT_NEW_MESSAGE "c1" (some sampleConversation)) :=
  ⟨by decide,
    (emitToConversation_dual_delivery_spec dispatchState "c1"
        sampleConversation "typing_indicator").2.2 (by decide),
    (emitToConversation_dual_delivery_spec dispatchState "c1"
        sampleConversation "typing_indicator").2.1 "B" (by decide) "s2"
      (by decide)⟩

/-- Helper: with no receipt of the caller present, markMessageAsRead writes
exactly one receipt entry and refreshes the legacy readAt field. -/
theorem markMessageAsRead_not_read (m : Message) (uid : String) (now : Int)
    (h : m.readBy.countP (fun r => r.userId == uid) = 0) :
    markMessageAsRead m uid now =
      some { m with readBy := m.readBy ++ [⟨uid, now⟩],
                    readAt := some now } := by
  have hany : m.readBy.any (fun r => r.userId == uid) = false := by
    rw [List.any_eq_false]
    intro r hr
    exact List.countP_eq_zero.mp h r hr
  simp [markMessageAsRead, hany]

/-- Helper: with a receipt of the caller present, markMessageAsRead writes
nothing. -/
theorem markMessageAsRead_already (m : Message) (uid : String) (now : Int)
    (h : m.readBy.any (fun r => r.userId == uid) = true) :
    markMessageAsRead m uid now = none := by
  simp [markMessageAsRead, h]

/-- Helper: starting from a message without a receipt of the caller, any
positive number of mark-read calls leaves exactly one receipt entry of that
caller. -/
theorem markReadIter_count (m : Message) (uid : String) (now : Int)
    (h : m.readBy.countP (fun r => r.userId == uid) = 0) :
    ∀ n, ((markReadIter m uid now (n + 1)).readBy.countP
            (fun r => r.userId == uid)) = 1 := by
  intro n
  induction n with
  | zero =>
      simp only [markReadIter, markMessageAsRead_not_read m uid now h]
      simp [List.countP_append, h, List.countP_cons]
  | succ k ih =>
      have hany : (markReadIter m uid now (k + 1)).readBy.any
          (fun r => r.userId == uid) = true := by
        rw [List.any_eq_true]
        have : 0 < (markReadIter m uid now (k + 1)).readBy.countP
            (fun r => r.userId == uid) := by omega
        exact List.countP_pos_iff.mp this
      have step : markReadIter m uid now (k + 1 + 1) =
          match markMessageAsRead (markReadIter m uid now (k + 1)) uid now with
          | none => markReadIter m uid now (k + 1)
          | some updated => updated := rfl
      rw [step, markMessageAsRead_already _ _ _ hany]
      exact ih

/-- C3 amended: re-marking is idempotent at the store level — with a receipt
of the caller already present markMessageAsRead writes nothing, and after
any positive number of mark-read calls by one identity the readBy list holds
exactly one entry of that identity; however the HTTP handler does not treat
the re-mark as a silent success: it reports status 400 to the caller. -/
theorem markMessageAsRead_idempotent_spec (m : Message) (uid : String)
    (now t : Int) (n : Nat) (conv : Conversation) :
    (m.readBy.any (fun r => r.userId == uid) = true →
       markMessageAsRead m uid now = none) ∧
    (m.readBy.countP (fun r => r.userId == uid) = 0 →
       ((markReadIter m uid now (n + 1)).readBy.countP
          (fun r => r.userId == uid)) = 1) ∧
    (m.readBy.any (fun r => r.userId == uid) = true →
       conv.participants.contains uid = true → m.senderId ≠ uid →
       markAsRead (some m) (some conv) uid t = (400, none)) := by
  refine ⟨fun h => markMessageAsRead_already m uid now h,
          fun h => markReadIter_count m uid now h n, ?_⟩
  intro hread hpart hsender
  have hs : (m.senderId == uid) = false := by
    simpa using hsender
  have hp' : uid ∈ conv.participants := by simpa using hpart
  simp [markAsRead, hp', hs, markMessageAsRead_already m uid t hread]

/-- Witness for markMessageAsRead_idempotent_spec: B marks the sample
message read twice, ending with one receipt entry; on the already-read
sample the handler answers 400. -/
theorem markMessageAsRead_idempotent_spec_witness :
    sampleMessage.readBy.countP (fun r => r.userId == "B") = 0 ∧
    ((markReadIter sampleMessage "B" 3 2).readBy.countP
       (fun r => r.userId == "B")) = 1 ∧
    readSampleMessage.readBy.any (fun r => r.userId == "B") = true ∧
    sampleConversation.participants.contains "B" = true ∧
    readSampleMessage.senderId ≠ "B" ∧
    markAsRead (some readSampleMessage) (some sampleConversation) "B" 5 =
      (400, none) :=
  ⟨by decide,
    (markMessageAsRead_idempotent_spec sampleMessage "B" 3 5 1
        sampleConversation).2.1 (by decide),
    by decide, by decide, by decide,
    (markMessageAsRead_idempotent_spec readSampleMessage "B" 3 5 1
        sampleConversation).2.2 (by decide) (by decide) (by decide)⟩

/-- Helper: Array.sort canonicalization is symmetric in the two user ids. -/
theorem canonicalPair_comm (a b : String) :
    canonicalPair a b = canonicalPair b a := by
  unfold canonicalPair
  rcases lt_trichotomy a b with h | h | h
  · simp [h, not_lt.mpr (le_of_lt h)]
  · subst h; rfl
  · simp [h, not_lt.mpr (le_of_lt h)]

/-- Helper: the conversation created for a pair satisfies the pair query of
that pair. -/
theorem conversationPairQuery_newPair (a b f : String) (t : Int) :
    conversationPairQuery (canonicalPair a b)
      (newPairConversation a b f t) = true := by
  unfold conversationPairQuery newPairConversation canonicalPair
  split <;> simp

/-- C7: one-on-one conversation creation is an idempotent get-or-create on
the unordered pair. On a store without a conversation for the pair, the
first call appends one conversation holding the pair in canonical sorted
order; a second call, with the ids in either argument order, returns that
same conversation and leaves the store unchanged; the maintained store holds
exactly one conversation matching the pair query, and a store holding at
most one match keeps at most one match through any call. -/
theorem getOrCreateConversation_spec (store : List Conversation)
    (a b f₁ f₂ : String) (t₁ t₂ : Int) (ha : a ≠ "") (hb : b ≠ "")
    (hmiss : ∀ c ∈ store,
      conversationPairQuery (canonicalPair a b) c = false) :
    getOrCreateConversation store a b f₁ t₁ =
      .ok (newPairConversation a b f₁ t₁,
           store ++ [newPairConversation a b f₁ t₁]) ∧
    (newPairConversation a b f₁ t₁).participants = canonicalPair a b ∧
    (newPairConversation a b f₁ t₁).isGroup = false ∧
    getOrCreateConversation (store ++ [newPairConversation a b f₁ t₁]) a b
        f₂ t₂ =
      .ok (newPairConversation a b f₁ t₁,
           store ++ [newPairConversation a b f₁ t₁]) ∧
    getOrCreateConversation (store ++ [newPairConversation a b f₁ t₁]) b a
        f₂ t₂ =
      .ok (newPairConversation a b f₁ t₁,
           store ++ [newPairConversation a b f₁ t₁]) ∧
    ((store ++ [newPairConversation a b f₁ t₁]).filter
       (conversationPairQuery (canonicalPair a b))).length = 1 ∧
    (∀ store' res,
      (store'.filter (conversationPairQuery (canonicalPair a b))).length ≤ 1 →
      getOrCreateConversation store' a b f₁ t₁ = .ok res →
      (res.2.filter (conversationPairQuery (canonicalPair a b))).length ≤ 1) := by
  have ha' : (a == "") = false := by simpa using ha
  have hb' : (b == "") = false := by simpa using hb
  have hfindStore : store.find? (conversationPairQuery (canonicalPair a b)) =
      none :=
    List.find?_eq_none.mpr (fun c hc => by simp [hmiss c hc])
  have hfilterStore : store.filter
      (conversationPairQuery (canonicalPair a b)) = [] := by
    rw [List.filter_eq_nil_iff]
    intro c hc
    simp [hmiss c hc]
  have hq := conversationPairQuery_newPair a b f₁ t₁
  have hfindApp : (store ++ [newPairConversation a b f₁ t₁]).find?
      (conversationPairQuery (canonicalPair a b)) =
      some (newPairConversation a b f₁ t₁) := by
    rw [List.find?_append, hfindStore]
    simp [hq]
  refine ⟨?_, rfl, rfl, ?_, ?_, ?_, ?_⟩
  · unfold getOrCreateConversation
    simp only [ha', hb', Bool.or_self, Bool.false_eq_true, if_false,
      hfindStore]
  · unfold getOrCreateConversation
    simp only [ha', hb', Bool.or_self, Bool.false_eq_true, if_false,
      hfindApp]
  · unfold getOrCreateConversation
    simp only [hb', ha', Bool.or_self, Bool.false_eq_true, if_false,
      canonicalPair_comm b a, hfindApp]
  · rw [List.filter_append store, hfilterStore]
    simp [hq]
  · intro store' res hinv hrun
    unfold getOrCreateConversation at hrun
    rw [if_neg (by simp [ha', hb'])] at hrun
    rcases hfind : store'.find? (conversationPairQuery (canonicalPair a b))
      with _ | c
    · rw [hfind] at hrun
      simp only [Except.ok.injEq] at hrun
      have hstore' : store'.filter
          (conversationPairQuery (canonicalPair a b)) = [] := by
        rw [List.filter_eq_nil_iff]
        intro c hc
        simp [List.find?_eq_none.mp hfind c hc]
      rw [← hrun]
      rw [List.filter_append store', hstore']
      simp [conversationPairQuery_newPair a b f₁ t₁]
    · rw [hfind] at hrun
      simp only [Except.ok.injEq] at hrun
      rw [← hrun]
      exact hinv

/-- Witness for getOrCreateConversation_spec: starting from the empty store,
the first request by B for a conversation with A creates the conversation
with the sorted pair, and the repeat request with the ids swapped returns
the very same conversation without growing the store. -/
theorem getOrCreateConversation_spec_witness :
    ("B" : String) ≠ "" ∧ ("A" : String) ≠ "" ∧
    getOrCreateConversation [] "B" "A" "c9" 1 =
      .ok (newPairConversation "B" "A" "c9" 1,
           [newPairConversation "B" "A" "c9" 1]) ∧
    getOrCreateConversation [newPairConversation "B" "A" "c9" 1] "A" "B"
        "cX" 2 =
      .ok (newPairConversation "B" "A" "c9" 1,
           [newPairConversation "B" "A" "c9" 1]) :=
  ⟨by decide, by decide,
    (getOrCreateConversation_spec [] "B" "A" "c9" "cX" 1 2 (by decide)
        (by decide) (by simp)).1,
    by
      have h := (getOrCreateConversation_spec [] "B" "A" "c9" "cX" 1 2
          (by decide) (by decide) (by simp)).2.2.2.2.1
      simpa using h⟩

/-- Helper: adminCount is the countP of the admin predicate. -/
theorem adminCount_eq_countP (g : Group) :
    adminCount g = g.members.countP (fun m => m.role == ROLE_ADMIN) := by
  unfold adminCount
  exact (List.countP_eq_length_filter _ _).symm

/-- Helper: hasAdmin states that the admin count is positive. -/
theorem hasAdmin_iff_countP (g : Group) :
    hasAdmin g = true ↔
      1 ≤ g.members.countP (fun m => m.role == ROLE_ADMIN) := by
  unfold hasAdmin
  rw [List.any_eq_true]
  constructor
  · rintro ⟨m, hm, hp⟩
    have h : 0 < g.members.countP (fun m => m.role == ROLE_ADMIN) :=
      List.countP_pos_iff.mpr ⟨m, hm, hp⟩
    omega
  · intro h
    have h' : 0 < g.members.countP (fun m => m.role == ROLE_ADMIN) := by
      omega
    exact List.countP_pos_iff.mp h'

/-- Helper: erasing the first member with a given id keeps an admin present,
provided that member is not the sole admin. -/
theorem countP_admin_eraseP (ms : List GroupMember) (uid : String)
    (member : GroupMember)
    (hfind : ms.find? (fun m => m.userId == uid) = some member)
    (hcnt : 1 ≤ ms.countP (fun m => m.role == ROLE_ADMIN))
    (hkeep : member.role = ROLE_ADMIN →
      2 ≤ ms.countP (fun m => m.role == ROLE_ADMIN)) :
    1 ≤ (ms.eraseP (fun m => m.userId == uid)).countP
          (fun m => m.role == ROLE_ADMIN) := by
  induction ms with
  | nil => simp at hfind
  | cons hd tl ih =>
    by_cases hm : (hd.userId == uid) = true
    · rw [List.find?_cons_of_pos (p := fun m => m.userId == uid) tl hm]
        at hfind
      injection hfind with hmem
      subst hmem
      rw [List.eraseP_cons_of_pos
        (p := fun (m : GroupMember) => m.userId == uid) hm]
      by_cases hr : (hd.role == ROLE_ADMIN) = true
      · have h2 := hkeep (by simpa using hr)
        rw [List.countP_cons_of_pos
          (p := fun m => m.role == ROLE_ADMIN) tl hr] at h2
        omega
      · rw [List.countP_cons_of_neg
          (p := fun m => m.role == ROLE_ADMIN) tl hr] at hcnt
        exact hcnt
    · rw [List.find?_cons_of_neg (p := fun m => m.userId == uid) tl
        (by simpa using hm)] at hfind
      rw [List.eraseP_cons_of_neg
        (p := fun (m : GroupMember) => m.userId == uid) (by simpa using hm)]
      by_cases hr : (hd.role == ROLE_ADMIN) = true
      · rw [List.countP_cons_of_pos
          (p := fun (m : GroupMember) => m.role == ROLE_ADMIN) _ hr]
        omega
      · rw [List.countP_cons_of_neg
          (p := fun (m : GroupMember) => m.role == ROLE_ADMIN) _ hr]
        rw [List.countP_cons_of_neg
          (p := fun m => m.role == ROLE_ADMIN) tl hr] at hcnt
        have hkeep' : member.role = ROLE_ADMIN →
            2 ≤ tl.countP (fun m => m.role == ROLE_ADMIN) := by
          intro h
          have h2 := hkeep h
          rw [List.countP_cons_of_neg
            (p := fun m => m.role == ROLE_ADMIN) tl hr] at h2
          exact h2
        exact ih hfind hcnt hkeep'

/-- Helper: reassigning the role of the first member with a given id keeps
an admin present, provided the demoted member is not the sole admin. -/
theorem countP_admin_setRole (ms : List GroupMember) (uid newRole : String)
    (member : GroupMember)
    (hfind : ms.find? (fun m => m.userId == uid) = some member)
    (hcnt : 1 ≤ ms.countP (fun m => m.role == ROLE_ADMIN))
    (hkeep : member.role = ROLE_ADMIN → newRole ≠ ROLE_ADMIN →
      2 ≤ ms.countP (fun m => m.role == ROLE_ADMIN)) :
    1 ≤ (setRole ms uid newRole).countP
          (fun m => m.role == ROLE_ADMIN) := by
  induction ms with
  | nil => simp at hfind
  | cons hd tl ih =>
    by_cases hm : (hd.userId == uid) = true
    · rw [List.find?_cons_of_pos (p := fun m => m.userId == uid) tl hm]
        at hfind
      injection hfind with hmem
      subst hmem
      unfold setRole
      rw [if_pos hm]
      by_cases hnew : newRole = ROLE_ADMIN
      · rw [List.countP_cons_of_pos (p := fun m => m.role == ROLE_ADMIN) tl
          (by simp [hnew])]
        omega
      · rw [List.countP_cons_of_neg (p := fun m => m.role == ROLE_ADMIN) tl
          (by simpa using hnew)]
        by_cases hr : (hd.role == ROLE_ADMIN) = true
        · have h2 := hkeep (by simpa using hr) hnew
          rw [List.countP_cons_of_pos
            (p := fun m => m.role == ROLE_ADMIN) tl hr] at h2
          omega
        · rw [List.countP_cons_of_neg
            (p := fun m => m.role == ROLE_ADMIN) tl hr] at hcnt
          exact hcnt
    · rw [List.find?_cons_of_neg (p := fun m => m.userId == uid) tl
        (by simpa using hm)] at hfind
      unfold setRole
      rw [if_neg (by simpa using hm)]
      by_cases hr : (hd.role == ROLE_ADMIN) = true
      · rw [List.countP_cons_of_pos
          (p := fun (m : GroupMember) => m.role == ROLE_ADMIN) _ hr]
        omega
      · rw [List.countP_cons_of_neg
          (p := fun (m : GroupMember) => m.role == ROLE_ADMIN) _ hr]
        rw [List.countP_cons_of_neg
          (p := fun m => m.role == ROLE_ADMIN) tl hr] at hcnt
        have hkeep' : member.role = ROLE_ADMIN → newRole ≠ ROLE_ADMIN →
            2 ≤ tl.countP (fun m => m.role == ROLE_ADMIN) := by
          intro h h'
          have h2 := hkeep h h'
          rw [List.countP_cons_of_neg
            (p := fun m => m.role == ROLE_ADMIN) tl hr] at h2
          exact h2
        exact ih hfind hcnt hkeep'

/-- C4: the sole remaining admin cannot be removed, demoted away from
admin, or allowed to leave — each operation answers its error — and every
successful membership mutation (remove, role update, leave, add) keeps at
least one admin in the group. -/
theorem groupAdmin_invariant_spec (g : Group) (conv : Conversation)
    (uid newRole addedBy role : String) (now : Int) :
    (∀ member, g.isActive = true →
       g.members.find? (fun m => m.userId == uid) = some member →
       member.role = ROLE_ADMIN → adminCount g = 1 →
       removeGroupMember g conv uid =
         .error "Cannot remove the only admin from the group") ∧
    (∀ member, g.isActive = true →
       g.members.find? (fun m => m.userId == uid) = some member →
       member.role = ROLE_ADMIN → newRole ≠ ROLE_ADMIN → adminCount g = 1 →
       updateMemberRole g uid newRole =
         .error "Cannot demote the only admin of the group") ∧
    (∀ member, g.isActive = true →
       g.members.find? (fun m => m.userId == uid) = some member →
       member.role = ROLE_ADMIN → adminCount g = 1 →
       leaveGroup g conv uid =
         .error
           "As the only admin, you must assign another admin before leaving the group") ∧
    (∀ g' conv', hasAdmin g = true →
       removeGroupMember g conv uid = .ok (g', conv') →
       hasAdmin g' = true) ∧
    (∀ g', hasAdmin g = true →
       updateMemberRole g uid newRole = .ok g' → hasAdmin g' = true) ∧
    (∀ g' conv', hasAdmin g = true →
       leaveGroup g conv uid = .ok (g', conv') → hasAdmin g' = true) ∧
    (∀ g' conv', hasAdmin g = true →
       addGroupMember g conv uid addedBy role now = .ok (g', conv') →
       hasAdmin g' = true) := by
  refine ⟨?_, ?_, ?_, ?_, ?_, ?_, ?_⟩
  · intro member hact hfind hrole hcount
    unfold removeGroupMember
    rw [hact]
    simp only [Bool.not_true, Bool.false_eq_true, if_false]
    rw [hfind]
    simp [hrole, hcount]
  · intro member hact hfind hrole hnew hcount
    unfold updateMemberRole
    rw [hact]
    simp only [Bool.not_true, Bool.false_eq_true, if_false]
    rw [hfind]
    simp [hrole, hnew, hcount]
  · intro member hact hfind hrole hcount
    unfold leaveGroup
    rw [hact]
    simp only [Bool.not_true, Bool.false_eq_true, if_false]
    rw [hfind]
    simp [hrole, hcount]
  · intro g' conv' hadm hok
    unfold removeGroupMember at hok
    split at hok
    · simp at hok
    · split at hok
      · simp at hok
      · rename_i member hfind
        split at hok
        · simp at hok
        · rename_i hcond
          simp only [Except.ok.injEq, Prod.mk.injEq] at hok
          have hg' := hok.1
          rw [hasAdmin_iff_countP] at hadm ⊢
          rw [← hg']
          refine countP_admin_eraseP g.members uid member hfind hadm ?_
          intro hrole
          rw [adminCount_eq_countP] at hcond
          by_contra hlt
          push_neg at hlt
          have hone : g.members.countP (fun m => m.role == ROLE_ADMIN) = 1 :=
            by omega
          exact hcond (by simp [hrole, hone])
  · intro g' hadm hok
    unfold updateMemberRole at hok
    split at hok
    · simp at hok
    · split at hok
      · simp at hok
      · rename_i member hfind
        split at hok
        · simp at hok
        · rename_i hcond
          simp only [Except.ok.injEq] at hok
          rw [hasAdmin_iff_countP] at hadm ⊢
          rw [← hok]
          refine countP_admin_setRole g.members uid newRole member hfind
            hadm ?_
          intro hrole hnew
          rw [adminCount_eq_countP] at hcond
          by_contra hlt
          push_neg at hlt
          have hone : g.members.countP (fun m => m.role == ROLE_ADMIN) = 1 :=
            by omega
          exact hcond (by simp [hrole, hnew, hone])
  · intro g' conv' hadm hok
    unfold leaveGroup at hok
    split at hok
    · simp at hok
    · split at hok
      · simp at hok
      · rename_i member hfind
        split at hok
        · simp at hok
        · rename_i hcond
          simp only [Except.ok.injEq, Prod.mk.injEq] at hok
          have hg' := hok.1
          rw [hasAdmin_iff_countP] at hadm ⊢
          rw [← hg']
          refine countP_admin_eraseP g.members uid member hfind hadm ?_
          intro hrole
          rw [adminCount_eq_countP] at hcond
          by_contra hlt
          push_neg at hlt
          have hone : g.members.countP (fun m => m.role == ROLE_ADMIN) = 1 :=
            by omega
          exact hcond (by simp [hrole, hone])
  · intro g' conv' hadm hok
    unfold addGroupMember at hok
    split at hok
    · simp at hok
    · split at hok
      · simp at hok
      · simp only [Except.ok.injEq, Prod.mk.injEq] at hok
        have hg' := hok.1
        unfold hasAdmin at hadm ⊢
        rw [← hg']
        simp only [List.any_append]
        rw [hadm]
        rfl

/-- Witness for groupAdmin_invariant_spec: in the sample group, removing the
sole admin A is rejected, while removing member B succeeds and the group
keeps its admin. -/
theorem groupAdmin_invariant_spec_witness :
    sampleGroup.isActive = true ∧
    sampleGroup.members.find? (fun m => m.userId == "A") =
      some ⟨"A", ROLE_ADMIN, "A", 0, none⟩ ∧
    adminCount sampleGroup = 1 ∧
    removeGroupMember sampleGroup sampleGroupConversation "A" =
      .error "Cannot remove the only admin from the group" ∧
    removeGroupMember sampleGroup sampleGroupConversation "B" =
      .ok ({ sampleGroup with
               members := [⟨"A", ROLE_ADMIN, "A", 0, none⟩] },
           { sampleGroupConversation with participants := ["A"] }) ∧
    hasAdmin { sampleGroup with
                 members := [⟨"A", ROLE_ADMIN, "A", 0, none⟩] } = true :=
  ⟨rfl, by decide, by decide,
    (groupAdmin_invariant_spec sampleGroup sampleGroupConversation "A"
        ROLE_MEMBER "A" ROLE_MEMBER 0).1
      ⟨"A", ROLE_ADMIN, "A", 0, none⟩ rfl (by decide) rfl (by decide),
    by rfl,
    (groupAdmin_invariant_spec sampleGroup sampleGroupConversation "B"
        ROLE_MEMBER "A" ROLE_MEMBER 0).2.2.2.1
      { sampleGroup with members := [⟨"A", ROLE_ADMIN, "A", 0, none⟩] }
      { sampleGroupConversation with participants := ["A"] }
      (by decide) (by rfl)⟩

/-- C3 counterexample: participant B has already read the sample message;
the claim calls a re-mark a non-error no-op, but the cited HTTP handler
answers error status 400 (Message already marked as read or not found)
rather than a success status. -/
theorem markAsRead_already_read_counterexample :
    readSampleMessage.readBy.countP (fun r => r.userId == "B") = 1 ∧
    markAsRead (some readSampleMessage) (some sampleConversation) "B" 5 =
      (400, none) ∧
    (400 : Nat) ≠ 200 := by
  exact ⟨by decide, by decide, by decide⟩

/-- Helper: lookup on a one-step-extended association list. -/
theorem mapLookup_cons {α : Type} (a : String) (b : α)
    (rest : List (String × α)) (k : String) :
    mapLookup ((a, b) :: rest) k =
      if a = k then some b else mapLookup rest k := by
  unfold mapLookup
  by_cases h : a = k
  · rw [List.find?_cons_of_pos (p := fun (e : String × α) => e.1 == k) rest
      (by simp [h])]
    simp [h]
  · rw [List.find?_cons_of_neg (p := fun (e : String × α) => e.1 == k) rest
      (by simp [h])]
    simp [h]

/-- Helper: Map.set updates exactly the written key. -/
theorem mapLookup_mapSet {α : Type} (m : List (String × α)) (k k' : String)
    (v : α) :
    mapLookup (mapSet m k v) k' =
      if k' = k then some v else mapLookup m k' := by
  induction m with
  | nil =>
      unfold mapSet
      rw [mapLookup_cons]
      by_cases h : k = k'
      · simp [h]
      · simp [h, Ne.symm h, mapLookup]
  | cons e rest ih =>
      obtain ⟨a, b⟩ := e
      unfold mapSet
      by_cases h1 : a = k
      · subst h1
        simp only [beq_self_eq_true, if_true]
        rw [mapLookup_cons, mapLookup_cons]
        by_cases h2 : a = k'
        · simp [h2]
        · simp [h2, Ne.symm h2]
      · rw [if_neg (by simpa using h1)]
        rw [mapLookup_cons, mapLookup_cons]
        by_cases h2 : a = k'
        · subst h2
          simp [h1]
        · simp [h2, ih]

/-- Helper: Map.delete removes exactly the deleted key. -/
theorem mapLookup_mapDelete {α : Type} (m : List (String × α))
    (k k' : String) :
    mapLookup (mapDelete m k) k' =
      if k' = k then none else mapLookup m k' := by
  induction m with
  | nil =>
      unfold mapDelete
      by_cases h : k' = k <;> simp [h, mapLookup]
  | cons e rest ih =>
      obtain ⟨a, b⟩ := e
      unfold mapDelete
      rw [List.filter_cons]
      by_cases h1 : a = k
      · subst h1
        simp only [bne_self_eq_false, Bool.false_eq_true, if_false]
        unfold mapDelete at ih
        rw [ih]
        by_cases h2 : k' = a
        · simp [h2]
        · simp [h2, mapLookup_cons, Ne.symm h2]
      · have hb : ((a, b).1 != k) = true := by simpa using h1
        rw [hb]
        simp only [if_true]
        rw [mapLookup_cons]
        by_cases h2 : a = k'
        · subst h2
          rw [if_pos rfl, if_neg h1, mapLookup_cons, if_pos rfl]
        · unfold mapDelete at ih
          rw [if_neg h2, ih]
          by_cases h3 : k' = k
          · simp [h3]
          · simp [h3, mapLookup_cons, h2]

/-- Helper: Set.add never produces the empty set. -/
theorem addToSet_ne_nil (s : List String) (x : String) :
    addToSet s x ≠ [] := by
  unfold addToSet
  by_cases hs : s = []
  · subst hs
    simp
  · split <;> simp [hs]

/-- Helper: the socket map produced by the disconnect handler. -/
theorem disconnectSocket_userSocketMap (st : SocketState) (u sid : String)
    (now : Int) :
    (disconnectSocket st u sid now).1.userSocketMap =
      match mapLookup st.userSocketMap u with
      | none => st.userSocketMap
      | some s =>
          if (setDelete s sid).isEmpty then mapDelete st.userSocketMap u
          else mapSet st.userSocketMap u (setDelete s sid) := by
  unfold disconnectSocket
  rcases h : mapLookup st.userSocketMap u with _ | s
  · simp
  · by_cases he : (setDelete s sid).isEmpty <;> simp [he]

/-- Helper: the events emitted by the disconnect handler. -/
theorem disconnectSocket_events (st : SocketState) (u sid : String)
    (now : Int) :
    (disconnectSocket st u sid now).2 =
      match mapLookup st.userSocketMap u with
      | none => []
      | some s =>
          if (setDelete s sid).isEmpty then
            [⟨u, false, some now⟩]
          else [] := by
  unfold disconnectSocket
  rcases h : mapLookup st.userSocketMap u with _ | s
  · simp
  · by_cases he : (setDelete s sid).isEmpty <;> simp [he]

/-- Helper: after a connect, the connecting user owns a non-empty socket
set extended with the new socket id. -/
theorem connectSocket_lookup_self (st : SocketState) (u sid : String) :
    mapLookup (connectSocket st u sid).1.userSocketMap u =
      some (addToSet ((mapLookup st.userSocketMap u).getD []) sid) := by
  unfold connectSocket
  by_cases h : (mapLookup st.userSocketMap u).isSome
  · rcases hl : mapLookup st.userSocketMap u with _ | s
    · rw [hl] at h
      simp at h
    · simp [hl, mapLookup_mapSet]
  · rcases hl : mapLookup st.userSocketMap u with _ | s
    · simp [hl, mapLookup_mapSet]
    · rw [hl] at h
      simp at h

/-- Helper: a connect leaves every other user's socket-map entry alone. -/
theorem connectSocket_lookup_other (st : SocketState) (u sid u' : String)
    (hne : u' ≠ u) :
    mapLookup (connectSocket st u sid).1.userSocketMap u' =
      mapLookup st.userSocketMap u' := by
  unfold connectSocket
  by_cases h : (mapLookup st.userSocketMap u).isSome <;>
    simp [h, mapLookup_mapSet, hne]

/-- Helper: the empty registry satisfies the invariant. -/
theorem goodState_empty : GoodState SocketState.empty := by
  intro u s h
  simp [mapLookup, SocketState.empty] at h

/-- Helper: the connect handler preserves the registry invariant. -/
theorem connectSocket_goodState (st : SocketState) (u sid : String)
    (h : GoodState st) : GoodState (connectSocket st u sid).1 := by
  intro u' s hs
  by_cases hu : u' = u
  · subst hu
    rw [connectSocket_lookup_self] at hs
    injection hs with hss
    rw [← hss]
    exact addToSet_ne_nil _ _
  · rw [connectSocket_lookup_other st u sid u' hu] at hs
    exact h u' s hs

/-- Helper: the disconnect handler preserves the registry invariant. -/
theorem disconnectSocket_goodState (st : SocketState) (u sid : String)
    (now : Int) (h : GoodState st) :
    GoodState (disconnectSocket st u sid now).1 := by
  intro u' s hs
  rw [disconnectSocket_userSocketMap] at hs
  rcases hl : mapLookup st.userSocketMap u with _ | s₀
  · rw [hl] at hs
    simp only at hs
    exact h u' s hs
  · rw [hl] at hs
    simp only at hs
    by_cases he : (setDelete s₀ sid).isEmpty
    · rw [if_pos he, mapLookup_mapDelete] at hs
      by_cases hu : u' = u
      · rw [if_pos hu] at hs
        cases hs
      · rw [if_neg hu] at hs
        exact h u' s hs
    · rw [if_neg he, mapLookup_mapSet] at hs
      by_cases hu : u' = u
      · rw [if_pos hu] at hs
        injection hs with hss
        rw [← hss]
        simpa using he
      · rw [if_neg hu] at hs
        exact h u' s hs

/-- Helper: a user who is offline emits nothing and stays offline through a
disconnect. -/
theorem disconnectSocket_offline (st : SocketState) (u sid : String)
    (now : Int) (h : getUserOnlineStatus st u = false) :
    getUserOnlineStatus (disconnectSocket st u sid now).1 u = false ∧
    (disconnectSocket st u sid now).2 = [] := by
  have hl : mapLookup st.userSocketMap u = none := by
    unfold getUserOnlineStatus at h
    rcases hh : mapLookup st.userSocketMap u with _ | s
    · rfl
    · rw [hh] at h
      simp at h
  constructor
  · unfold getUserOnlineStatus
    rw [disconnectSocket_userSocketMap, hl]
    simp only
    unfold getUserOnlineStatus at h
    exact h
  · rw [disconnectSocket_events, hl]

/-- Helper: the offline-event count of one disconnect is one exactly when
the user goes from online to offline. -/
theorem disconnectSocket_offline_count (st : SocketState) (u sid : String)
    (now : Int) :
    offlineEventCount (disconnectSocket st u sid now).2 u =
      (if getUserOnlineStatus st u = true ∧
          getUserOnlineStatus (disconnectSocket st u sid now).1 u = false
       then 1 else 0) := by
  unfold getUserOnlineStatus
  rw [disconnectSocket_events, disconnectSocket_userSocketMap]
  rcases hl : mapLookup st.userSocketMap u with _ | s
  · simp [offlineEventCount]
  · by_cases he : (setDelete s sid).isEmpty
    · simp [he, offlineEventCount, mapLookup_mapDelete]
    · simp [he, offlineEventCount, mapLookup_mapSet]

/-- Helper: the offline-event count is additive over a trace split. -/
theorem offlineEventCount_append (l₁ l₂ : List StatusEvent) (u : String) :
    offlineEventCount (l₁ ++ l₂) u =
      offlineEventCount l₁ u + offlineEventCount l₂ u := by
  unfold offlineEventCount
  exact List.countP_append _ _ _

/-- Helper: an offline user stays offline and emits nothing through any
batch of disconnects. -/
theorem runDisconnects_offline (u : String) (sids : List String) (now : Int) :
    ∀ st : SocketState, getUserOnlineStatus st u = false →
      getUserOnlineStatus (runDisconnects st u sids now).1 u = false ∧
      (runDisconnects st u sids now).2 = [] := by
  induction sids with
  | nil =>
      intro st h
      exact ⟨h, rfl⟩
  | cons sid rest ih =>
      intro st h
      have h1 := disconnectSocket_offline st u sid now h
      have h2 := ih (disconnectSocket st u sid now).1 h1.1
      refine ⟨h2.1, ?_⟩
      show (disconnectSocket st u sid now).2 ++
        (runDisconnects (disconnectSocket st u sid now).1 u rest now).2 = []
      rw [h1.2, h2.2]
      rfl

/-- Helper: over any batch of disconnects for one identity, the number of
offline events equals one exactly when the batch takes the identity from
online to offline. -/
theorem runDisconnects_offline_count (u : String) (sids : List String)
    (now : Int) :
    ∀ st : SocketState,
      offlineEventCount (runDisconnects st u sids now).2 u =
        (if getUserOnlineStatus st u = true ∧
            getUserOnlineStatus (runDisconnects st u sids now).1 u = false
         then 1 else 0) := by
  induction sids with
  | nil =>
      intro st
      show offlineEventCount [] u =
        if getUserOnlineStatus st u = true ∧
            getUserOnlineStatus st u = false then 1 else 0
      by_cases h : getUserOnlineStatus st u = true
      · simp [offlineEventCount, h]
      · simp [offlineEventCount, h]
  | cons sid rest ih =>
      intro st
      show offlineEventCount ((disconnectSocket st u sid now).2 ++
          (runDisconnects (disconnectSocket st u sid now).1 u rest now).2)
          u =
        if getUserOnlineStatus st u = true ∧
            getUserOnlineStatus
              (runDisconnects (disconnectSocket st u sid now).1 u
                rest now).1 u = false
        then 1 else 0
      rw [offlineEventCount_append, disconnectSocket_offline_count,
        ih (disconnectSocket st u sid now).1]
      by_cases hb : getUserOnlineStatus st u = true
      · by_cases ha :
            getUserOnlineStatus (disconnectSocket st u sid now).1 u = true
        · simp [hb, ha]
        · have ha' :
              getUserOnlineStatus (disconnectSocket st u sid now).1 u =
                false := by
            simpa using ha
          have hoff := runDisconnects_offline u rest now
            (disconnectSocket st u sid now).1 ha'
          simp [hb, ha', hoff.1, hoff.2, offlineEventCount]
      · have hb' : getUserOnlineStatus st u = false := by simpa using hb
        have h1 := disconnectSocket_offline st u sid now hb'
        have hoff := runDisconnects_offline u rest now
          (disconnectSocket st u sid now).1 h1.1
        simp [hb, h1.1, h1.2, hoff.2, offlineEventCount]

/-- Helper: disconnecting a batch that covers every live connection of an
identity leaves the identity offline. -/
theorem runDisconnects_all_offline (u : String) (sids : List String)
    (now : Int) :
    ∀ st : SocketState, GoodState st →
      (∀ x ∈ liveConnections st u, x ∈ sids) →
      getUserOnlineStatus (runDisconnects st u sids now).1 u = false := by
  induction sids with
  | nil =>
      intro st hg hsub
      show getUserOnlineStatus st u = false
      unfold getUserOnlineStatus
      rcases hl : mapLookup st.userSocketMap u with _ | s
      · rfl
      · exfalso
        have hne := hg u s hl
        refine hne (List.eq_nil_iff_forall_not_mem.mpr ?_)
        intro x hx
        have hmem : x ∈ liveConnections st u := by
          unfold liveConnections
          rw [hl]
          simpa using hx
        simpa using hsub x hmem
  | cons sid rest ih =>
      intro st hg hsub
      show getUserOnlineStatus
        (runDisconnects (disconnectSocket st u sid now).1 u rest now).1 u =
          false
      apply ih
      · exact disconnectSocket_goodState st u sid now hg
      · intro x hx
        unfold liveConnections at hx
        rw [disconnectSocket_userSocketMap] at hx
        rcases hl : mapLookup st.userSocketMap u with _ | s₀
        · rw [hl] at hx
          simp only at hx
          rw [hl] at hx
          simp at hx
        · rw [hl] at hx
          simp only at hx
          by_cases he : (setDelete s₀ sid).isEmpty
          · rw [if_pos he, mapLookup_mapDelete, if_pos rfl] at hx
            simp at hx
          · rw [if_neg he, mapLookup_mapSet, if_pos rfl] at hx
            simp only [Option.getD_some] at hx
            unfold setDelete at hx
            rw [List.mem_filter] at hx
            have hxs : x ∈ liveConnections st u := by
              unfold liveConnections
              rw [hl]
              simpa using hx.1
            rcases List.mem_cons.mp (hsub x hxs) with hcase | hcase
            · exfalso
              have hne := hx.2
              simp [hcase] at hne
            · exact hcase

/-- C5: under the registry invariant — which holds initially and is
preserved by the connect and disconnect handlers — an identity reports
online exactly when it has at least one live registered connection; over
any serialized batch of disconnects for one identity the trace carries an
offline event exactly once when the identity goes from online to offline
and never otherwise, a batch covering every live connection always ends
offline, and every emitted offline event carries isOnline false with a
lastSeen timestamp. -/
theorem presence_spec (st : SocketState) (u sid : String)
    (sids : List String) (now : Int) :
    GoodState SocketState.empty ∧
    (GoodState st → GoodState (connectSocket st u sid).1) ∧
    (GoodState st → GoodState (disconnectSocket st u sid now).1) ∧
    (GoodState st →
      (getUserOnlineStatus st u = true ↔ liveConnections st u ≠ [])) ∧
    (offlineEventCount (runDisconnects st u sids now).2 u =
      (if getUserOnlineStatus st u = true ∧
          getUserOnlineStatus (runDisconnects st u sids now).1 u = false
       then 1 else 0)) ∧
    (GoodState st → (∀ x ∈ liveConnections st u, x ∈ sids) →
      getUserOnlineStatus (runDisconnects st u sids now).1 u = false ∧
      offlineEventCount (runDisconnects st u sids now).2 u =
        (if getUserOnlineStatus st u = true then 1 else 0)) ∧
    (∀ ev ∈ (disconnectSocket st u sid now).2,
      ev = ⟨u, false, some now⟩) := by
  refine ⟨goodState_empty, connectSocket_goodState st u sid,
    disconnectSocket_goodState st u sid now, ?_,
    runDisconnects_offline_count u sids now st, ?_, ?_⟩
  · intro hg
    unfold getUserOnlineStatus liveConnections
    rcases hl : mapLookup st.userSocketMap u with _ | s
    · simp
    · simpa using hg u s hl
  · intro hg hsub
    have hoff := runDisconnects_all_offline u sids now st hg hsub
    refine ⟨hoff, ?_⟩
    rw [runDisconnects_offline_count u sids now st, hoff]
    by_cases hb : getUserOnlineStatus st u = true
    · simp [hb]
    · simp [hb]
  · intro ev hev
    rw [disconnectSocket_events] at hev
    rcases hl : mapLookup st.userSocketMap u with _ | s
    · rw [hl] at hev
      simp at hev
    · rw [hl] at hev
      simp only at hev
      by_cases he : (setDelete s sid).isEmpty
      · rw [if_pos he] at hev
        simpa using hev
      · rw [if_neg he] at hev
        simp at hev

/-- Witness for presence_spec: user A connects from two devices; A is
online, and disconnecting both sockets leaves A offline having emitted
exactly one offline event. -/
theorem presence_spec_witness :
    GoodState multiDeviceState ∧
    getUserOnlineStatus multiDeviceState "A" = true ∧
    getUserOnlineStatus
      (runDisconnects multiDeviceState "A" ["s1", "s2"] 99).1 "A" = false ∧
    offlineEventCount
      (runDisconnects multiDeviceState "A" ["s1", "s2"] 99).2 "A" = 1 := by
  have hg : GoodState multiDeviceState :=
    (presence_spec (connectSocket SocketState.empty "A" "s1").1 "A" "s2"
        [] 0).2.1
      ((presence_spec SocketState.empty "A" "s1" [] 0).2.1
        (presence_spec SocketState.empty "A" "s1" [] 0).1)
  have hmain :=
    (presence_spec multiDeviceState "A" "s1" ["s1", "s2"] 99).2.2.2.2.2.1 hg
      (by decide)
  refine ⟨hg, by decide, hmain.1, ?_⟩
  rw [hmain.2]
  decide

end Chat
